import Mathlib

/-!
Shallow embedding of the FitSync notification service
(`src/index.js` together with the HTTP client in `src/utils/httpClient.js`).

The in-memory store `notifications` is a `Map` from user id to an array of
notification records; it is embedded as a function `String → Option (List
Notification)`.  The JavaScript clock (`Date.now()` / `new Date()`) is made
an explicit `now : Nat` parameter of every operation that reads it.  Resolver
results (`getUserContact`, `getProgramDetails`) are passed to the handlers as
`Option`-valued parameters: `none` is the absence value the resolver returns
on any failure.  Event handlers return the list of (mock) emails they send
together with the updated store.
-/

/-- A stored in-app record, as built by `storeNotification` in `index.js`:
the draft fields plus `id` (the decimal string of the clock), `read_at`
(`null` at creation) and `created_at`. -/
structure Notification where
  id : String
  type : String
  category : String
  title : String
  message : String
  metadata : List (String × String)
  read_at : Option Nat
  created_at : Nat
deriving DecidableEq, Repr

/-- The draft object a handler passes to `storeNotification`:
`{ type, category, title, message, metadata }`. -/
structure Draft where
  type : String
  category : String
  title : String
  message : String
  metadata : List (String × String)
deriving DecidableEq, Repr

/-- The in-memory `notifications` map: user id to that user's array, `none`
when the map has no entry for the user. -/
def Store : Type := String → Option (List Notification)

/-- The store at service start: the map is empty. -/
def emptyStore : Store := fun _ => none

/-- Embeds `notifications.set(userId, l)`. -/
def Store.set (s : Store) (userId : String) (l : List Notification) : Store :=
  fun v => if v = userId then some l else s v

/-- The list served by `GET /api/notifications`:
`notifications.get(userId) || []`. -/
def Store.list (s : Store) (userId : String) : List Notification :=
  (s userId).getD []

/-- The record pushed by `storeNotification`:
`{ id: Date.now().toString(), ...notification, read_at: null, created_at: new Date() }`. -/
def mkStored (d : Draft) (now : Nat) : Notification :=
  { id := toString now
    type := d.type
    category := d.category
    title := d.title
    message := d.message
    metadata := d.metadata
    read_at := none
    created_at := now }

/-- Embeds `storeNotification(userId, notification)`: create the user's array when
missing, then push the completed record at the end. -/
def storeNotification (s : Store) (userId : String) (d : Draft) (now : Nat) : Store :=
  let cur := (s userId).getD []
  Store.set s userId (cur ++ [mkStored d now])

/-- The 404 signal of the read and delete routes. -/
inductive ApiError where
  | notFound
deriving DecidableEq, Repr

/-- Embeds `userNotifications.find(n => n.id === id)` followed by the in-place
`notification.read_at = new Date()`: locate the first record with the given
id, set its `read_at`, and return the updated record with the updated list;
`none` when no record matches. -/
def markReadList (l : List Notification) (id : String) (now : Nat) :
    Option (Notification × List Notification) :=
  match l with
  | [] => none
  | n :: rest =>
    if n.id = id then
      let n' := { n with read_at := some now }
      some (n', n' :: rest)
    else
      match markReadList rest id now with
      | none => none
      | some (m, rest') => some (m, n :: rest')

/-- Embeds `PUT /api/notifications/:id/read` after the `user_id` check: look the
record up in `notifications.get(userId) || []`; 404 when absent, otherwise
set `read_at` to the current time and return the updated record. -/
def markRead (s : Store) (userId id : String) (now : Nat) :
    Except ApiError (Notification × Store) :=
  let l := (s userId).getD []
  match markReadList l id now with
  | none => Except.error ApiError.notFound
  | some (n', l') => Except.ok (n', Store.set s userId l')

/-- Embeds `findIndex(n => n.id === id)` followed by `splice(index, 1)`: remove the
first record with the given id, keeping all others in order; `none` when no
record matches. -/
def deleteFirst (l : List Notification) (id : String) : Option (List Notification) :=
  match l with
  | [] => none
  | n :: rest =>
    if n.id = id then some rest
    else (deleteFirst rest id).map (fun rest' => n :: rest')

/-- Embeds `DELETE /api/notifications/:id` after the `user_id` check:
`notifications.get(userId)` (404 when the map has no entry), then
`findIndex` / `splice(index, 1)`, 404 when no record matches. -/
def deleteNotification (s : Store) (userId id : String) : Except ApiError Store :=
  match s userId with
  | none => Except.error ApiError.notFound
  | some l =>
    match deleteFirst l id with
    | none => Except.error ApiError.notFound
    | some l' => Except.ok (Store.set s userId l')

/-- Embeds `GET /api/notifications/unread/count` after the `user_id` check:
`(notifications.get(userId) || []).filter(n => !n.read_at).length`.  The
`read_at` field is either `null` (falsy) or a `Date` (always truthy), so the
filter keeps exactly the records whose `read_at` is `null`. -/
def unreadCount (s : Store) (userId : String) : Nat :=
  (((s userId).getD []).filter (fun n => n.read_at.isNone)).length

/-- JavaScript truthiness of an optional string field: `undefined` and the
empty string are falsy. -/
def jsTruthy (o : Option String) : Bool :=
  match o with
  | none => false
  | some s => !(s == "")

/-- JavaScript `o || d` on an optional string field. -/
def jsOr (o : Option String) (d : String) : String :=
  if jsTruthy o then o.getD d else d

/-- A (mock) outbound email, as passed to `sendEmail(to, subject, body)`. -/
structure Email where
  «to» : String
  subject : String
  body : String
deriving DecidableEq, Repr

/-- The user profile the Contact Resolver returns (`getUserContact`); the
handlers read `first_name` and `email`. -/
structure User where
  first_name : String
  email : String
deriving DecidableEq, Repr

/-- The program object the Contact Resolver returns (`getProgramDetails`);
the handler reads `name`, which the remote object may lack. -/
structure Program where
  name : Option String
deriving DecidableEq, Repr

/-- Payload of `booking.created`. -/
structure BookingCreatedData where
  booking_id : String
  client_id : String
  trainer_id : String
  booking_date : String
  start_time : String
deriving DecidableEq, Repr

/-- Payload of `booking.cancelled`; `reason` may be absent. -/
structure BookingCancelledData where
  booking_id : String
  client_id : String
  reason : Option String
deriving DecidableEq, Repr

/-- Payload of `program.assigned`. -/
structure ProgramAssignedData where
  program_id : String
  client_id : String
  trainer_id : String
  workout_plan_id : String
  diet_plan_id : String
deriving DecidableEq, Repr

/-- Payload of `achievement.earned`; `description` may be absent. -/
structure AchievementData where
  achievement_id : String
  client_id : String
  type : String
  title : String
  description : Option String
deriving DecidableEq, Repr

/-- Payload of `program.completed`. -/
structure ProgramCompletedData where
  program_id : String
  client_id : String
  trainer_id : String
deriving DecidableEq, Repr

/-- Payload of `booking.completed`. -/
structure BookingCompletedData where
  booking_id : String
  client_id : String
  trainer_id : String
  workout_date : String
deriving DecidableEq, Repr

/-- Payload of `milestone.reached`. -/
structure MilestoneData where
  client_id : String
  milestone_type : String
  achieved_value : String
  previous_value : String
deriving DecidableEq, Repr

/-- Embeds `handleBookingCreated(data)`: no resolver call; emails the client alias
and stores a `booking_confirmation` record. -/
def handleBookingCreated (data : BookingCreatedData) (s : Store) (now : Nat) :
    List Email × Store :=
  ( [{ «to» := "client-" ++ data.client_id ++ "@fitsync.com"
       subject := "Booking Confirmation"
       body := "Your booking for " ++ data.booking_date ++ " at " ++ data.start_time ++
         " has been confirmed. Booking ID: " ++ data.booking_id }]
  , storeNotification s data.client_id
      { type := "booking_confirmation"
        category := "booking_confirmation"
        title := "Booking Confirmed"
        message := "Your session on " ++ data.booking_date ++ " at " ++ data.start_time ++
          " has been booked successfully."
        metadata := [("booking_id", data.booking_id), ("booking_date", data.booking_date),
          ("start_time", data.start_time)] } now )

/-- Embeds `handleBookingCancelled(data)`: no resolver call; the email body appends
`Reason: ...` only for a truthy `reason`, the stored message appends
`reason || ''`. -/
def handleBookingCancelled (data : BookingCancelledData) (s : Store) (now : Nat) :
    List Email × Store :=
  ( [{ «to» := "client-" ++ data.client_id ++ "@fitsync.com"
       subject := "Booking Cancelled"
       body := "Your booking has been cancelled. " ++
         (if jsTruthy data.reason then "Reason: " ++ data.reason.getD "" else "") }]
  , storeNotification s data.client_id
      { type := "booking_cancellation"
        category := "booking_reminder"
        title := "Booking Cancelled"
        message := "Your booking has been cancelled. " ++ jsOr data.reason ""
        metadata := [("booking_id", data.booking_id)] } now )

/-- Embeds `handleProgramAssigned(data)`: aborts when `getUserContact` yields the
absence value; otherwise falls back to the literal `Training Program` when
the program lookup fails or the `name` field is falsy. -/
def handleProgramAssigned (client : Option User) (program : Option Program)
    (data : ProgramAssignedData) (s : Store) (now : Nat) : List Email × Store :=
  match client with
  | none => ([], s)
  | some c =>
    let programName :=
      match program with
      | none => "Training Program"
      | some p => jsOr p.name "Training Program"
    ( [{ «to» := c.email
         subject := "New Training Program Assigned"
         body := "Hi " ++ c.first_name ++
           ",\n\nYour trainer has assigned you a new program: " ++ programName ++
           "\n\nLog in to view your program details and get started!" }]
    , storeNotification s data.client_id
        { type := "program_assigned"
          category := "program_assigned"
          title := "New Program Assigned"
          message := "Your trainer assigned you: " ++ programName
          metadata := [("program_id", data.program_id),
            ("workout_plan_id", data.workout_plan_id),
            ("diet_plan_id", data.diet_plan_id)] } now )

/-- Embeds `handleAchievementEarned(data)`: aborts when `getUserContact` yields the
absence value. -/
def handleAchievementEarned (client : Option User) (data : AchievementData)
    (s : Store) (now : Nat) : List Email × Store :=
  match client with
  | none => ([], s)
  | some c =>
    ( [{ «to» := c.email
         subject := "🎉 Achievement Unlocked!"
         body := "Congratulations " ++ c.first_name ++
           "!\n\nYou\x27ve earned a new achievement: " ++ data.title ++ "\n\n" ++
           jsOr data.description "" ++ "\n\nKeep up the great work!" }]
    , storeNotification s data.client_id
        { type := "achievement"
          category := "achievement"
          title := "Achievement Unlocked!"
          message := "Congratulations! You\x27ve earned: " ++ data.title
          metadata := [("achievement_id", data.achievement_id), ("type", data.type)] } now )

/-- Embeds `handleProgramCompleted(data)`: aborts when `getUserContact` yields the
absence value. -/
def handleProgramCompleted (client : Option User) (data : ProgramCompletedData)
    (s : Store) (now : Nat) : List Email × Store :=
  match client with
  | none => ([], s)
  | some c =>
    ( [{ «to» := c.email
         subject := "Program Completed!"
         body := "Congratulations " ++ c.first_name ++
           "!\n\nYou\x27ve successfully completed your training program!\n\nGreat work on finishing your program. Keep up the momentum!" }]
    , storeNotification s data.client_id
        { type := "program_completed"
          category := "program_assigned"
          title := "Program Completed!"
          message := "Congratulations on completing your training program!"
          metadata := [("program_id", data.program_id)] } now )

/-- Embeds `handleBookingCompleted(data)`: aborts when `getUserContact` yields the
absence value. -/
def handleBookingCompleted (client : Option User) (data : BookingCompletedData)
    (s : Store) (now : Nat) : List Email × Store :=
  match client with
  | none => ([], s)
  | some c =>
    ( [{ «to» := c.email
         subject := "Session Completed"
         body := "Hi " ++ c.first_name ++ ",\n\nYour training session on " ++
           data.workout_date ++
           " has been marked as complete.\n\nYou can now log your workout details and track your progress!" }]
    , storeNotification s data.client_id
        { type := "booking_completed"
          category := "booking_confirmation"
          title := "Session Completed"
          message := "Your training session on " ++ data.workout_date ++
            " is complete. Log your workout!"
          metadata := [("booking_id", data.booking_id)] } now )

/-- Embeds `handleMilestoneReached(data)`: aborts when `getUserContact` yields the
absence value; the stored metadata is the entire payload. -/
def handleMilestoneReached (client : Option User) (data : MilestoneData)
    (s : Store) (now : Nat) : List Email × Store :=
  match client with
  | none => ([], s)
  | some c =>
    ( [{ «to» := c.email
         subject := "🎯 Milestone Achieved!"
         body := "Congratulations " ++ c.first_name ++
           "!\n\nYou\x27ve reached a new milestone:\n" ++ data.milestone_type ++ ": " ++
           data.achieved_value ++ "\n\nProgress from: " ++ data.previous_value ++
           " → " ++ data.achieved_value ++ "\n\nKeep up the amazing work!" }]
    , storeNotification s data.client_id
        { type := "milestone"
          category := "achievement"
          title := "Milestone Achieved!"
          message := "You\x27ve reached: " ++ data.milestone_type
          metadata := [("client_id", data.client_id),
            ("milestone_type", data.milestone_type),
            ("achieved_value", data.achieved_value),
            ("previous_value", data.previous_value)] } now )

/-- An operation on the store: an append made by a handler, or one of the
mutating API routes (each carrying the clock value it reads). -/
inductive StoreOp where
  | append (userId : String) (draft : Draft) (now : Nat)
  | markRead (userId : String) (id : String) (now : Nat)
  | delete (userId : String) (id : String)
deriving DecidableEq, Repr

/-- Runs one operation; a 404 leaves the store untouched. -/
def applyOp (s : Store) : StoreOp → Store
  | StoreOp.append u d now => storeNotification s u d now
  | StoreOp.markRead u id now =>
    match markRead s u id now with
    | Except.ok (_, s') => s'
    | Except.error _ => s
  | StoreOp.delete u id =>
    match deleteNotification s u id with
    | Except.ok s' => s'
    | Except.error _ => s

/-- One `storeNotification` call: the user, the draft, and the clock value at
the call. -/
structure AppendCall where
  userId : String
  draft : Draft
  now : Nat
deriving DecidableEq, Repr

/-- Runs a sequence of `storeNotification` calls, oldest first. -/
def applyAppends (s : Store) : List AppendCall → Store
  | [] => s
  | c :: rest => applyAppends (storeNotification s c.userId c.draft c.now) rest

/-- Decimal digit characters of `n`, most significant first: the character
list underlying `Nat.repr n`. -/
def decDigits (n : Nat) : List Char :=
  if n < 10 then [Nat.digitChar n]
  else decDigits (n / 10) ++ [Nat.digitChar (n % 10)]
termination_by n
decreasing_by exact Nat.div_lt_self (by omega) (by omega)

/-! ### Helper lemmas about the store -/

theorem Store.list_set_self (s : Store) (u : String) (l : List Notification) :
    (Store.set s u l).list u = l := by
  simp [Store.set, Store.list]

theorem Store.list_set_other (s : Store) (u v : String) (l : List Notification)
    (h : v ≠ u) : (Store.set s u l).list v = s.list v := by
  simp [Store.set, Store.list, h]

theorem storeNotification_list (s : Store) (v : String) (d : Draft) (now : Nat)
    (u : String) :
    (storeNotification s v d now).list u =
      if u = v then s.list u ++ [mkStored d now] else s.list u := by
  by_cases h : u = v
  · subst h
    simp [storeNotification, Store.set, Store.list]
  · simp [storeNotification, Store.set, Store.list, h]

/-- Full characterisation of `markReadList`: either no record has the id and
the lookup fails, or the list splits around the first match and exactly that
record gets `read_at` set. -/
theorem markReadList_spec (l : List Notification) (id : String) (now : Nat) :
    (markReadList l id now = none ∧ ∀ n ∈ l, n.id ≠ id) ∨
    ∃ pre x post, l = pre ++ x :: post ∧ (∀ y ∈ pre, y.id ≠ id) ∧ x.id = id ∧
      markReadList l id now =
        some ({ x with read_at := some now }, pre ++ { x with read_at := some now } :: post) := by
  induction l with
  | nil => exact Or.inl ⟨rfl, by simp⟩
  | cons n rest ih =>
    by_cases hn : n.id = id
    · refine Or.inr ⟨[], n, rest, by simp, by simp, hn, ?_⟩
      simp [markReadList, hn]
    · rcases ih with ⟨hnone, hall⟩ | ⟨pre, x, post, hl, hpre, hx, hsome⟩
      · refine Or.inl ⟨?_, ?_⟩
        · simp [markReadList, hn, hnone]
        · intro m hm
          rcases List.mem_cons.mp hm with h | h
          · simpa [h] using hn
          · exact hall m h
      · refine Or.inr ⟨n :: pre, x, post, by simp [hl], ?_, hx, ?_⟩
        · intro y hy
          rcases List.mem_cons.mp hy with h | h
          · simpa [h] using hn
          · exact hpre y h
        · simp [markReadList, hn, hsome]

/-- Full characterisation of `deleteFirst`: either no record has the id and
the lookup fails, or the list splits around the first match and exactly that
record is removed. -/
theorem deleteFirst_spec (l : List Notification) (id : String) :
    (deleteFirst l id = none ∧ ∀ n ∈ l, n.id ≠ id) ∨
    ∃ pre x post, l = pre ++ x :: post ∧ (∀ y ∈ pre, y.id ≠ id) ∧ x.id = id ∧
      deleteFirst l id = some (pre ++ post) := by
  induction l with
  | nil => exact Or.inl ⟨rfl, by simp⟩
  | cons n rest ih =>
    by_cases hn : n.id = id
    · exact Or.inr ⟨[], n, rest, by simp, by simp, hn, by simp [deleteFirst, hn]⟩
    · rcases ih with ⟨hnone, hall⟩ | ⟨pre, x, post, hl, hpre, hx, hsome⟩
      · refine Or.inl ⟨by simp [deleteFirst, hn, hnone], ?_⟩
        intro m hm
        rcases List.mem_cons.mp hm with h | h
        · simpa [h] using hn
        · exact hall m h
      · refine Or.inr ⟨n :: pre, x, post, by simp [hl], ?_, hx, ?_⟩
        · intro y hy
          rcases List.mem_cons.mp hy with h | h
          · simpa [h] using hn
          · exact hpre y h
        · simp [deleteFirst, hn, hsome]

/-- Positionally, `markReadList` leaves every slot unchanged except the first
match, whose `read_at` becomes `some now`. -/
theorem markReadList_getElem? (l : List Notification) (id : String) (now : Nat)
    (m : Notification) (l' : List Notification)
    (h : markReadList l id now = some (m, l')) (j : Nat) :
    l'[j]? = l[j]? ∨
    ∃ n, l[j]? = some n ∧ l'[j]? = some { n with read_at := some now } := by
  induction l generalizing l' j with
  | nil => simp [markReadList] at h
  | cons n rest ih =>
    by_cases hn : n.id = id
    · simp only [markReadList, if_pos hn] at h
      rw [Option.some.injEq, Prod.mk.injEq] at h
      obtain ⟨h1, h2⟩ := h
      subst h1
      subst h2
      match j with
      | 0 => exact Or.inr ⟨n, by simp, by simp⟩
      | j + 1 => exact Or.inl (by simp)
    · simp only [markReadList, if_neg hn] at h
      match hrec : markReadList rest id now with
      | none => rw [hrec] at h; cases h
      | some (m', rest') =>
        rw [hrec] at h
        cases h
        match j with
        | 0 => simp
        | j + 1 =>
          simpa using ih rest' hrec j

/-- Lemma: `deleteFirst` only removes a record: the result is a sublist. -/
theorem deleteFirst_sublist (l : List Notification) (id : String)
    (l' : List Notification) (h : deleteFirst l id = some l') :
    l'.Sublist l := by
  rcases deleteFirst_spec l id with ⟨hnone, _⟩ | ⟨pre, x, post, hl, _, _, hsome⟩
  · rw [hnone] at h; cases h
  · rw [hsome] at h
    cases h
    rw [hl]
    exact (List.sublist_cons_self x post).append_left pre

/-- Running a sequence of appends extends each user's list, in call order,
with exactly the records of that user's appends. -/
theorem applyAppends_list (ops : List AppendCall) (s : Store) (u : String) :
    (applyAppends s ops).list u =
      s.list u ++ (ops.filter (fun c => c.userId == u)).map
        (fun c => mkStored c.draft c.now) := by
  induction ops generalizing s with
  | nil => simp [applyAppends]
  | cons c rest ih =>
    rw [applyAppends, ih]
    rw [storeNotification_list]
    by_cases hc : c.userId = u
    · simp [hc]
    · have h1 : (c.userId == u) = false := by simpa using hc
      have h2 : u ≠ c.userId := fun h => hc h.symm
      simp [h1, h2]

/-! ### Injectivity of the decimal id string

The ids `storeNotification` generates are `Date.now().toString()`, embedded
as `toString (now : Nat)`, which is `Nat.repr`.  To reason about their
distinctness we characterise `Nat.repr` by a structurally transparent
digit-list function and prove that function injective. -/

theorem decDigits_ne_nil (n : Nat) : decDigits n ≠ [] := by
  rw [decDigits]
  split <;> simp

theorem digitChar_inj_lt :
    ∀ a < 10, ∀ b < 10, Nat.digitChar a = Nat.digitChar b → a = b := by decide

theorem toDigitsCore_eq_decDigits (f : Nat) :
    ∀ (n : Nat) (acc : List Char), n ≤ f →
      Nat.toDigitsCore 10 (f + 1) n acc = decDigits n ++ acc := by
  induction f with
  | zero =>
    intro n acc h
    have hn : n = 0 := Nat.le_zero.mp h
    subst hn
    rw [Nat.toDigitsCore]
    rw [decDigits]
    norm_num
  | succ f ih =>
    intro n acc h
    rw [Nat.toDigitsCore]
    by_cases h10 : n / 10 = 0
    · have hlt : n < 10 := by omega
      have hmod : n % 10 = n := Nat.mod_eq_of_lt hlt
      rw [decDigits]
      simp [h10, hlt, hmod]
    · have hge : 10 ≤ n := by
        by_contra hc
        exact h10 (Nat.div_eq_of_lt (by omega))
      have hrec : n / 10 ≤ f := by
        have := Nat.div_lt_self (by omega : 0 < n) (by omega : 1 < 10)
        omega
      simp only [h10, if_neg]
      rw [ih (n / 10) (Nat.digitChar (n % 10) :: acc) hrec]
      conv_rhs => rw [decDigits]
      have hnlt : ¬ n < 10 := by omega
      simp [hnlt]

theorem decDigits_inj : ∀ m n : Nat, decDigits m = decDigits n → m = n := by
  intro m
  induction m using Nat.strong_induction_on with
  | _ m ih =>
    intro n h
    by_cases hm : m < 10 <;> by_cases hn : n < 10
    · have hdm : decDigits m = [Nat.digitChar m] := by rw [decDigits, if_pos hm]
      have hdn : decDigits n = [Nat.digitChar n] := by rw [decDigits, if_pos hn]
      rw [hdm, hdn] at h
      simp only [List.cons.injEq, and_true] at h
      exact digitChar_inj_lt m hm n hn h
    · have hdm : decDigits m = [Nat.digitChar m] := by rw [decDigits, if_pos hm]
      have hdn : decDigits n = decDigits (n / 10) ++ [Nat.digitChar (n % 10)] := by
        rw [decDigits, if_neg hn]
      rw [hdm, hdn] at h
      obtain ⟨c, cs, hcs⟩ := List.exists_cons_of_ne_nil (decDigits_ne_nil (n / 10))
      rw [hcs] at h
      simp at h
    · have hdm : decDigits m = decDigits (m / 10) ++ [Nat.digitChar (m % 10)] := by
        rw [decDigits, if_neg hm]
      have hdn : decDigits n = [Nat.digitChar n] := by rw [decDigits, if_pos hn]
      rw [hdm, hdn] at h
      obtain ⟨c, cs, hcs⟩ := List.exists_cons_of_ne_nil (decDigits_ne_nil (m / 10))
      rw [hcs] at h
      simp at h
    · have hdm : decDigits m = decDigits (m / 10) ++ [Nat.digitChar (m % 10)] := by
        rw [decDigits, if_neg hm]
      have hdn : decDigits n = decDigits (n / 10) ++ [Nat.digitChar (n % 10)] := by
        rw [decDigits, if_neg hn]
      rw [hdm, hdn] at h
      obtain ⟨h1, h2⟩ := List.append_inj' h rfl
      have hdiv : m / 10 = n / 10 :=
        ih (m / 10) (Nat.div_lt_self (by omega) (by omega)) (n / 10) h1
      have hmod : m % 10 = n % 10 :=
        digitChar_inj_lt _ (Nat.mod_lt _ (by omega)) _ (Nat.mod_lt _ (by omega))
          (by simpa using h2)
      omega

theorem natRepr_eq_decDigits (n : Nat) : Nat.repr n = (decDigits n).asString := by
  rw [Nat.repr, Nat.toDigits]
  rw [toDigitsCore_eq_decDigits n n [] (Nat.le_refl n)]
  simp

theorem natRepr_inj : Function.Injective Nat.repr := by
  intro m n h
  rw [natRepr_eq_decDigits, natRepr_eq_decDigits] at h
  have hd : decDigits m = decDigits n := by
    have := congrArg String.data h
    simpa [List.asString] using this
  exact decDigits_inj m n hd

theorem natToString_inj : Function.Injective (fun n : Nat => toString n) := by
  intro m n h
  exact natRepr_inj h

/-- When the list splits around the first record carrying the id,
`markReadList` updates exactly that record. -/
theorem markReadList_first (pre : List Notification) (x : Notification)
    (post : List Notification) (id : String) (now : Nat)
    (hpre : ∀ y ∈ pre, y.id ≠ id) (hx : x.id = id) :
    markReadList (pre ++ x :: post) id now =
      some ({ x with read_at := some now },
        pre ++ { x with read_at := some now } :: post) := by
  induction pre with
  | nil => simp [markReadList, hx]
  | cons y rest ih =>
    have hy : y.id ≠ id := hpre y (List.mem_cons_self y rest)
    have hrest : ∀ z ∈ rest, z.id ≠ id := fun z hz => hpre z (List.mem_cons_of_mem y hz)
    simp [markReadList, hy, ih hrest]

/-- When the list splits around the first record carrying the id,
`deleteFirst` removes exactly that record. -/
theorem deleteFirst_first (pre : List Notification) (x : Notification)
    (post : List Notification) (id : String)
    (hpre : ∀ y ∈ pre, y.id ≠ id) (hx : x.id = id) :
    deleteFirst (pre ++ x :: post) id = some (pre ++ post) := by
  induction pre with
  | nil => simp [deleteFirst, hx]
  | cons y rest ih =>
    have hy : y.id ≠ id := hpre y (List.mem_cons_self y rest)
    have hrest : ∀ z ∈ rest, z.id ≠ id := fun z hz => hpre z (List.mem_cons_of_mem y hz)
    simp [deleteFirst, hy, ih hrest]

/-! ### Claims -/

/-- C2: every handler that needs a Contact Resolver call
(`booking.completed`, `program.assigned`, `program.completed`,
`achievement.earned`, `milestone.reached`) returns with no email sent and
the store untouched when `getUserContact` comes back absent, so every
user's notification list is exactly as before the event. -/
theorem claim_handlers_skip_on_absent_user :
    ∀ (s : Store) (now : Nat) (d1 : BookingCompletedData) (prog : Option Program)
      (d2 : ProgramAssignedData) (d3 : ProgramCompletedData) (d4 : AchievementData)
      (d5 : MilestoneData),
      handleBookingCompleted none d1 s now = ([], s) ∧
      handleProgramAssigned none prog d2 s now = ([], s) ∧
      handleProgramCompleted none d3 s now = ([], s) ∧
      handleAchievementEarned none d4 s now = ([], s) ∧
      handleMilestoneReached none d5 s now = ([], s) := by
  intro s now d1 prog d2 d3 d4 d5
  exact ⟨rfl, rfl, rfl, rfl, rfl⟩

/-- C6: after any sequence of `storeNotification` calls starting from the
empty store, each user's list holds exactly that user's appended records, in
call order and with content intact, and a user with no appends gets the
empty list. -/
theorem claim_list_in_append_order :
    ∀ (ops : List AppendCall) (u : String),
      (applyAppends emptyStore ops).list u =
        (ops.filter (fun c => c.userId == u)).map (fun c => mkStored c.draft c.now) ∧
      emptyStore.list u = [] := by
  intro ops u
  refine ⟨?_, ?_⟩
  · rw [applyAppends_list]
    simp [emptyStore, Store.list]
  · simp [emptyStore, Store.list]

/-- C8: a `booking.cancelled` payload without a `reason` field stores a
notification whose message is exactly `"Your booking has been cancelled. "`
(trailing space kept) and contains no `"Reason:"` substring. -/
theorem claim_bookingCancelled_no_reason :
    ∀ (bid cid : String) (s : Store) (now : Nat),
      ∃ n, ((handleBookingCancelled ⟨bid, cid, none⟩ s now).2).list cid =
            s.list cid ++ [n] ∧
        n.message = "Your booking has been cancelled. " ∧
        ¬ ("Reason:".toList <:+: n.message.toList) := by
  intro bid cid s now
  refine ⟨mkStored
    { type := "booking_cancellation"
      category := "booking_reminder"
      title := "Booking Cancelled"
      message := "Your booking has been cancelled. " ++ jsOr none ""
      metadata := [("booking_id", bid)] } now, ?_, ?_, ?_⟩
  · show (storeNotification s cid _ now).list cid = _
    rw [storeNotification_list]
    simp
  · show ("Your booking has been cancelled. " ++ jsOr none "" : String) = _
    decide
  · show ¬ ("Reason:".toList <:+: ("Your booking has been cancelled. " ++ jsOr none "" : String).toList)
    decide

/-- C9: when the user lookup succeeds but the program lookup fails or the
program carries no `name`, `program.assigned` still appends a notification
whose message contains the literal `"Training Program"`. -/
theorem claim_programAssigned_fallback :
    ∀ (c : User) (prog : Option Program) (data : ProgramAssignedData)
      (s : Store) (now : Nat),
      (prog = none ∨ ∃ p, prog = some p ∧ p.name = none) →
      ∃ n, ((handleProgramAssigned (some c) prog data s now).2).list data.client_id =
            s.list data.client_id ++ [n] ∧
        "Training Program".toList <:+: n.message.toList := by
  intro c prog data s now h
  rcases h with h | ⟨p, hp, hpname⟩
  · subst h
    refine ⟨mkStored
      { type := "program_assigned"
        category := "program_assigned"
        title := "New Program Assigned"
        message := "Your trainer assigned you: " ++ "Training Program"
        metadata := [("program_id", data.program_id),
          ("workout_plan_id", data.workout_plan_id),
          ("diet_plan_id", data.diet_plan_id)] } now, ?_, ?_⟩
    · simp only [handleProgramAssigned]
      rw [storeNotification_list]
      simp
    · show "Training Program".toList <:+:
        ("Your trainer assigned you: " ++ "Training Program" : String).toList
      decide
  · subst hp
    cases p with
    | mk pname =>
      simp only [Program.name] at hpname
      subst hpname
      refine ⟨mkStored
        { type := "program_assigned"
          category := "program_assigned"
          title := "New Program Assigned"
          message := "Your trainer assigned you: " ++ jsOr none "Training Program"
          metadata := [("program_id", data.program_id),
            ("workout_plan_id", data.workout_plan_id),
            ("diet_plan_id", data.diet_plan_id)] } now, ?_, ?_⟩
      · simp only [handleProgramAssigned]
        rw [storeNotification_list]
        simp
      · show "Training Program".toList <:+:
          ("Your trainer assigned you: " ++ jsOr none "Training Program" : String).toList
        decide

/-- C7: `unreadCount` is exactly the number of records in the user's list
whose `read_at` is null, and it is 0 for an unknown user and for an
all-read (or empty) list. -/
theorem claim_unreadCount :
    ∀ (s : Store) (u : String),
      unreadCount s u = ((s.list u).filter (fun n => n.read_at = none)).length ∧
      (s u = none → unreadCount s u = 0) ∧
      ((∀ n ∈ s.list u, n.read_at ≠ none) → unreadCount s u = 0) := by
  intro s u
  have hfilter : ((s u).getD []).filter (fun n => n.read_at.isNone) =
      ((s u).getD []).filter (fun n => decide (n.read_at = none)) := by
    apply List.filter_congr
    intro n _
    cases h : n.read_at <;> simp [h]
  refine ⟨?_, ?_, ?_⟩
  · rw [unreadCount, hfilter]
    rfl
  · intro h
    rw [unreadCount, h]
    rfl
  · intro h
    rw [unreadCount]
    have hnil : ((s u).getD []).filter (fun n => n.read_at.isNone) = [] := by
      rw [hfilter, List.filter_eq_nil_iff]
      intro n hn
      have := h n (by simpa [Store.list] using hn)
      simpa using this
    rw [hnil]
    rfl

/-- Witness for C7: the count is 0 for a user absent from the map, and 0
for a list whose single record has been marked read. -/
theorem claim_unreadCount_witness :
    (emptyStore "nobody" = none ∧ unreadCount emptyStore "nobody" = 0) ∧
    ((∀ n ∈ (applyOp (storeNotification emptyStore "u" ⟨"t", "c", "T", "m", []⟩ 5)
        (StoreOp.markRead "u" "5" 10)).list "u", n.read_at ≠ none) ∧
      unreadCount (applyOp (storeNotification emptyStore "u" ⟨"t", "c", "T", "m", []⟩ 5)
        (StoreOp.markRead "u" "5" 10)) "u" = 0) :=
  ⟨⟨rfl, (claim_unreadCount emptyStore "nobody").2.1 rfl⟩,
   ⟨by decide, (claim_unreadCount _ "u").2.2 (by decide)⟩⟩

/-- C1 counterexample: two appends for the same user in the same
millisecond (`Date.now()` returning 5 twice) produce two records with the
identical id `"5"`, so ids in a user's list need not be pairwise
distinct after an arbitrary sequence of appends. -/
theorem claim_id_unique_counterexample :
    ¬ (((applyAppends emptyStore
        [⟨"u1", ⟨"t", "c", "T", "m", []⟩, 5⟩,
         ⟨"u1", ⟨"t", "c", "T", "m", []⟩, 5⟩]).list "u1").map (fun n => n.id)).Nodup := by
  decide

/-- C1 amended: after any sequence of appends starting from the empty store,
the ids in a user's list are pairwise distinct provided the clock values of
that user's appends were pairwise distinct (ids are the decimal strings of
those clock values). -/
theorem claim_id_unique_amended :
    ∀ (ops : List AppendCall) (u : String),
      ((ops.filter (fun c => c.userId == u)).map (fun c => c.now)).Nodup →
      (((applyAppends emptyStore ops).list u).map (fun n => n.id)).Nodup := by
  intro ops u h
  rw [applyAppends_list]
  simp only [Store.list, emptyStore, Option.getD_none, List.nil_append]
  rw [List.map_map]
  have heq : ((fun n : Notification => n.id) ∘ fun c : AppendCall => mkStored c.draft c.now) =
      (fun n : Nat => toString n) ∘ fun c : AppendCall => c.now := rfl
  rw [heq, ← List.map_map]
  exact h.map natToString_inj

/-- Witness for the amended C1 at two appends with distinct clock values. -/
theorem claim_id_unique_witness :
    ((([⟨"u", ⟨"t", "c", "T", "m", []⟩, 1⟩, ⟨"u", ⟨"t", "c", "T", "m", []⟩, 2⟩] :
        List AppendCall).filter (fun c => c.userId == "u")).map (fun c => c.now)).Nodup ∧
    (((applyAppends emptyStore [⟨"u", ⟨"t", "c", "T", "m", []⟩, 1⟩,
        ⟨"u", ⟨"t", "c", "T", "m", []⟩, 2⟩]).list "u").map (fun n => n.id)).Nodup :=
  ⟨by decide, claim_id_unique_amended _ "u" (by decide)⟩

/-- C3 counterexample: marking the same record read twice, at clock values
10 then 20, moves `read_at` from `some 10` to `some 20` — a transition
between two non-null timestamps, so `read_at` does not change only by
null-to-non-null transitions. -/
theorem claim_read_at_transition_counterexample :
    ((applyOp (storeNotification emptyStore "u" ⟨"t", "c", "T", "m", []⟩ 5)
        (StoreOp.markRead "u" "5" 10)).list "u").map (fun n => n.read_at) = [some 10] ∧
    ((applyOp (applyOp (storeNotification emptyStore "u" ⟨"t", "c", "T", "m", []⟩ 5)
        (StoreOp.markRead "u" "5" 10)) (StoreOp.markRead "u" "5" 20)).list "u").map
      (fun n => n.read_at) = [some 20] ∧
    some (10 : Nat) ≠ (none : Option Nat) ∧ some (20 : Nat) ≠ some (10 : Nat) :=
  ⟨by decide, by decide, by decide, by decide⟩

/-- C3 amended: `read_at` is never cleared. Appends create records with
`read_at = null` and leave existing records alone; the mark-read route
either leaves a slot unchanged or sets its `read_at` to the current
(non-null) time — so a second mark-read may overwrite one non-null
timestamp with another, but nothing ever resets `read_at` to null, and
there is no mark-unread operation; delete only removes records. -/
theorem claim_read_at_one_way :
    ∀ (s : Store) (u v : String),
      (∀ (d : Draft) (now : Nat) (n' : Notification),
          n' ∈ (applyOp s (StoreOp.append v d now)).list u →
            n' ∈ s.list u ∨ (n' = mkStored d now ∧ n'.read_at = none)) ∧
      (∀ (id : String) (now : Nat) (j : Nat),
          ((applyOp s (StoreOp.markRead v id now)).list u)[j]? = (s.list u)[j]? ∨
          ∃ n, (s.list u)[j]? = some n ∧
            ((applyOp s (StoreOp.markRead v id now)).list u)[j]? =
              some { n with read_at := some now }) ∧
      (∀ id : String, ((applyOp s (StoreOp.delete v id)).list u).Sublist (s.list u)) := by
  intro s u v
  refine ⟨?_, ?_, ?_⟩
  · intro d now n' hmem
    have happ : applyOp s (StoreOp.append v d now) = storeNotification s v d now := rfl
    rw [happ, storeNotification_list] at hmem
    by_cases huv : u = v
    · rw [if_pos huv] at hmem
      rcases List.mem_append.mp hmem with h | h
      · exact Or.inl h
      · have := List.mem_singleton.mp h
        exact Or.inr ⟨this, by rw [this]; rfl⟩
    · rw [if_neg huv] at hmem
      exact Or.inl hmem
  · intro id now j
    rcases hmr : markReadList ((s v).getD []) id now with _ | ⟨m, l'⟩
    · have hid : applyOp s (StoreOp.markRead v id now) = s := by
        simp [applyOp, markRead, hmr]
      rw [hid]
      exact Or.inl rfl
    · have happ : applyOp s (StoreOp.markRead v id now) = Store.set s v l' := by
        simp [applyOp, markRead, hmr]
      rw [happ]
      by_cases huv : u = v
      · subst huv
        rw [Store.list_set_self]
        have := markReadList_getElem? ((s u).getD []) id now m l' hmr j
        simpa [Store.list] using this
      · rw [Store.list_set_other s v u l' huv]
        exact Or.inl rfl
  · intro id
    cases hsv : s v with
    | none =>
      have hid : applyOp s (StoreOp.delete v id) = s := by
        simp [applyOp, deleteNotification, hsv]
      rw [hid]
    | some l =>
      rcases hdf : deleteFirst l id with _ | l'
      · have hid : applyOp s (StoreOp.delete v id) = s := by
          simp [applyOp, deleteNotification, hsv, hdf]
        rw [hid]
      · have happ : applyOp s (StoreOp.delete v id) = Store.set s v l' := by
          simp [applyOp, deleteNotification, hsv, hdf]
        rw [happ]
        by_cases huv : u = v
        · subst huv
          rw [Store.list_set_self]
          have hlu : s.list u = l := by simp [Store.list, hsv]
          rw [hlu]
          exact deleteFirst_sublist l id l' hdf
        · rw [Store.list_set_other s v u l' huv]

/-- Witness for the amended C3: a fresh append lands in the store and is
recognised as the freshly created unread record. -/
theorem claim_read_at_one_way_witness :
    mkStored ⟨"t", "c", "T", "m", []⟩ 7 ∈
      (applyOp (storeNotification emptyStore "u" ⟨"t", "c", "T", "m", []⟩ 5)
        (StoreOp.append "u" ⟨"t", "c", "T", "m", []⟩ 7)).list "u" ∧
    (mkStored ⟨"t", "c", "T", "m", []⟩ 7 ∈
        (storeNotification emptyStore "u" ⟨"t", "c", "T", "m", []⟩ 5).list "u" ∨
      (mkStored ⟨"t", "c", "T", "m", []⟩ 7 = mkStored ⟨"t", "c", "T", "m", []⟩ 7 ∧
        (mkStored ⟨"t", "c", "T", "m", []⟩ 7).read_at = none)) :=
  ⟨by decide,
   (claim_read_at_one_way (storeNotification emptyStore "u" ⟨"t", "c", "T", "m", []⟩ 5)
      "u" "u").1 ⟨"t", "c", "T", "m", []⟩ 7 (mkStored ⟨"t", "c", "T", "m", []⟩ 7) (by decide)⟩

/-- C4: when the id occurs in the user's list, the mark-read route succeeds
and changes only the `read_at` field of the first matching record — all
records before and after it are shared unchanged, and every other user's
list is untouched. -/
theorem claim_markRead_frame :
    ∀ (s : Store) (u id : String) (now : Nat),
      (∃ n ∈ s.list u, n.id = id) →
      ∃ (pre post : List Notification) (x : Notification),
        s.list u = pre ++ x :: post ∧ x.id = id ∧
        markRead s u id now =
          Except.ok ({ x with read_at := some now },
            Store.set s u (pre ++ { x with read_at := some now } :: post)) ∧
        (Store.set s u (pre ++ { x with read_at := some now } :: post)).list u =
          pre ++ { x with read_at := some now } :: post ∧
        ∀ v, v ≠ u →
          (Store.set s u (pre ++ { x with read_at := some now } :: post)).list v =
            s.list v := by
  intro s u id now h
  rcases markReadList_spec ((s u).getD []) id now with ⟨_, hall⟩ |
    ⟨pre, x, post, hl, hpre, hx, hsome⟩
  · exfalso
    obtain ⟨n, hn, hid⟩ := h
    exact hall n (by simpa [Store.list] using hn) hid
  · refine ⟨pre, post, x, by simpa [Store.list] using hl, hx, ?_,
      Store.list_set_self _ _ _, fun v hv => Store.list_set_other _ _ _ _ hv⟩
    simp [markRead, hsome]

/-- Witness for C4 at a store holding one record for each of two users. -/
theorem claim_markRead_frame_witness :
    ∃ (pre post : List Notification) (x : Notification),
      (storeNotification (storeNotification emptyStore "u" ⟨"t", "c", "T", "m", []⟩ 5)
        "w" ⟨"t2", "c2", "T2", "m2", []⟩ 6).list "u" = pre ++ x :: post ∧
      x.id = "5" ∧
      markRead (storeNotification (storeNotification emptyStore "u" ⟨"t", "c", "T", "m", []⟩ 5)
          "w" ⟨"t2", "c2", "T2", "m2", []⟩ 6) "u" "5" 10 =
        Except.ok ({ x with read_at := some 10 },
          Store.set (storeNotification
            (storeNotification emptyStore "u" ⟨"t", "c", "T", "m", []⟩ 5)
            "w" ⟨"t2", "c2", "T2", "m2", []⟩ 6) "u"
            (pre ++ { x with read_at := some 10 } :: post)) ∧
      (Store.set (storeNotification
          (storeNotification emptyStore "u" ⟨"t", "c", "T", "m", []⟩ 5)
          "w" ⟨"t2", "c2", "T2", "m2", []⟩ 6) "u"
          (pre ++ { x with read_at := some 10 } :: post)).list "u" =
        pre ++ { x with read_at := some 10 } :: post ∧
      ∀ v, v ≠ "u" →
        (Store.set (storeNotification
            (storeNotification emptyStore "u" ⟨"t", "c", "T", "m", []⟩ 5)
            "w" ⟨"t2", "c2", "T2", "m2", []⟩ 6) "u"
            (pre ++ { x with read_at := some 10 } :: post)).list v =
          (storeNotification (storeNotification emptyStore "u" ⟨"t", "c", "T", "m", []⟩ 5)
            "w" ⟨"t2", "c2", "T2", "m2", []⟩ 6).list v :=
  claim_markRead_frame _ "u" "5" 10 (by decide)

/-- C5: when some record carries the id, delete succeeds and removes exactly
that one record, keeping the rest in relative order; when no record carries
it, delete answers 404 and the store is unchanged. -/
theorem claim_delete_spec :
    ∀ (s : Store) (u id : String),
      ((∃ n ∈ s.list u, n.id = id) →
        ∃ (pre post : List Notification) (x : Notification),
          s.list u = pre ++ x :: post ∧ x.id = id ∧
          deleteNotification s u id = Except.ok (Store.set s u (pre ++ post)) ∧
          (Store.set s u (pre ++ post)).list u = pre ++ post) ∧
      ((∀ n ∈ s.list u, n.id ≠ id) →
        deleteNotification s u id = Except.error ApiError.notFound ∧
        applyOp s (StoreOp.delete u id) = s) := by
  intro s u id
  constructor
  · intro h
    cases hsu : s u with
    | none =>
      exfalso
      obtain ⟨n, hn, _⟩ := h
      rw [Store.list, hsu] at hn
      simp at hn
    | some l =>
      rcases deleteFirst_spec l id with ⟨_, hall⟩ | ⟨pre, x, post, hl, hpre, hx, hsome⟩
      · exfalso
        obtain ⟨n, hn, hid⟩ := h
        exact hall n (by simpa [Store.list, hsu] using hn) hid
      · refine ⟨pre, post, x, by simp [Store.list, hsu, hl], hx, ?_,
          Store.list_set_self _ _ _⟩
        simp [deleteNotification, hsu, hsome]
  · intro h
    cases hsu : s u with
    | none =>
      exact ⟨by simp [deleteNotification, hsu], by simp [applyOp, deleteNotification, hsu]⟩
    | some l =>
      rcases deleteFirst_spec l id with ⟨hnone, _⟩ | ⟨pre, x, post, hl, hpre, hx, hsome⟩
      · exact ⟨by simp [deleteNotification, hsu, hnone],
          by simp [applyOp, deleteNotification, hsu, hnone]⟩
      · exfalso
        have hxmem : x ∈ s.list u := by simp [Store.list, hsu, hl]
        exact h x hxmem hx

/-- Witness for C5: deleting the middle of a 3-record list succeeds, and
deleting an unknown id answers 404 leaving the store as it was. -/
theorem claim_delete_spec_witness :
    (∃ (pre post : List Notification) (x : Notification),
      (applyAppends emptyStore [⟨"u", ⟨"tA", "c", "A", "m", []⟩, 1⟩,
        ⟨"u", ⟨"tB", "c", "B", "m", []⟩, 2⟩,
        ⟨"u", ⟨"tC", "c", "C", "m", []⟩, 3⟩]).list "u" = pre ++ x :: post ∧
      x.id = "2" ∧
      deleteNotification (applyAppends emptyStore [⟨"u", ⟨"tA", "c", "A", "m", []⟩, 1⟩,
        ⟨"u", ⟨"tB", "c", "B", "m", []⟩, 2⟩,
        ⟨"u", ⟨"tC", "c", "C", "m", []⟩, 3⟩]) "u" "2" =
        Except.ok (Store.set (applyAppends emptyStore [⟨"u", ⟨"tA", "c", "A", "m", []⟩, 1⟩,
          ⟨"u", ⟨"tB", "c", "B", "m", []⟩, 2⟩,
          ⟨"u", ⟨"tC", "c", "C", "m", []⟩, 3⟩]) "u" (pre ++ post)) ∧
      (Store.set (applyAppends emptyStore [⟨"u", ⟨"tA", "c", "A", "m", []⟩, 1⟩,
        ⟨"u", ⟨"tB", "c", "B", "m", []⟩, 2⟩,
        ⟨"u", ⟨"tC", "c", "C", "m", []⟩, 3⟩]) "u" (pre ++ post)).list "u" = pre ++ post) ∧
    (deleteNotification (applyAppends emptyStore [⟨"u", ⟨"tA", "c", "A", "m", []⟩, 1⟩,
        ⟨"u", ⟨"tB", "c", "B", "m", []⟩, 2⟩,
        ⟨"u", ⟨"tC", "c", "C", "m", []⟩, 3⟩]) "u" "9" =
        Except.error ApiError.notFound ∧
      applyOp (applyAppends emptyStore [⟨"u", ⟨"tA", "c", "A", "m", []⟩, 1⟩,
        ⟨"u", ⟨"tB", "c", "B", "m", []⟩, 2⟩,
        ⟨"u", ⟨"tC", "c", "C", "m", []⟩, 3⟩]) (StoreOp.delete "u" "9") =
        applyAppends emptyStore [⟨"u", ⟨"tA", "c", "A", "m", []⟩, 1⟩,
          ⟨"u", ⟨"tB", "c", "B", "m", []⟩, 2⟩,
          ⟨"u", ⟨"tC", "c", "C", "m", []⟩, 3⟩]) :=
  ⟨(claim_delete_spec _ "u" "2").1 (by decide),
   (claim_delete_spec _ "u" "9").2 (by decide)⟩

/-- C10: on a list whose first matching record sits between `pre` (no
match) and `post` (which may hold further records with the same id), the
read and delete routes act on that first match only: mark-read updates its
`read_at` and keeps `post` as is, delete removes it and keeps `post` as
is. -/
theorem claim_first_match :
    ∀ (s : Store) (u id : String) (now : Nat) (pre post : List Notification)
      (x : Notification),
      s.list u = pre ++ x :: post → (∀ y ∈ pre, y.id ≠ id) → x.id = id →
      markRead s u id now =
        Except.ok ({ x with read_at := some now },
          Store.set s u (pre ++ { x with read_at := some now } :: post)) ∧
      (Store.set s u (pre ++ { x with read_at := some now } :: post)).list u =
        pre ++ { x with read_at := some now } :: post ∧
      deleteNotification s u id = Except.ok (Store.set s u (pre ++ post)) ∧
      (Store.set s u (pre ++ post)).list u = pre ++ post := by
  intro s u id now pre post x hl hpre hx
  have hgd : (s u).getD [] = pre ++ x :: post := by simpa [Store.list] using hl
  have hsu : s u = some (pre ++ x :: post) := by
    cases hsv : s u with
    | none =>
      rw [hsv] at hgd
      simp at hgd
    | some l =>
      rw [hsv] at hgd
      simp at hgd
      rw [hgd]
  refine ⟨?_, Store.list_set_self _ _ _, ?_, Store.list_set_self _ _ _⟩
  · simp [markRead, hgd, markReadList_first pre x post id now hpre hx]
  · simp [deleteNotification, hsu, deleteFirst_first pre x post id hpre hx]

/-- Witness for C10 on a list with two records sharing the id `"5"`: both
routes act on the first and keep the duplicate in place. -/
theorem claim_first_match_witness :
    markRead (applyAppends emptyStore [⟨"u", ⟨"tA", "c", "A", "m", []⟩, 5⟩,
        ⟨"u", ⟨"tB", "c", "B", "m", []⟩, 5⟩]) "u" "5" 10 =
      Except.ok ({ mkStored ⟨"tA", "c", "A", "m", []⟩ 5 with read_at := some 10 },
        Store.set (applyAppends emptyStore [⟨"u", ⟨"tA", "c", "A", "m", []⟩, 5⟩,
          ⟨"u", ⟨"tB", "c", "B", "m", []⟩, 5⟩]) "u"
          ([] ++ { mkStored ⟨"tA", "c", "A", "m", []⟩ 5 with read_at := some 10 } ::
            [mkStored ⟨"tB", "c", "B", "m", []⟩ 5])) ∧
    (Store.set (applyAppends emptyStore [⟨"u", ⟨"tA", "c", "A", "m", []⟩, 5⟩,
        ⟨"u", ⟨"tB", "c", "B", "m", []⟩, 5⟩]) "u"
        ([] ++ { mkStored ⟨"tA", "c", "A", "m", []⟩ 5 with read_at := some 10 } ::
          [mkStored ⟨"tB", "c", "B", "m", []⟩ 5])).list "u" =
      [] ++ { mkStored ⟨"tA", "c", "A", "m", []⟩ 5 with read_at := some 10 } ::
        [mkStored ⟨"tB", "c", "B", "m", []⟩ 5] ∧
    deleteNotification (applyAppends emptyStore [⟨"u", ⟨"tA", "c", "A", "m", []⟩, 5⟩,
        ⟨"u", ⟨"tB", "c", "B", "m", []⟩, 5⟩]) "u" "5" =
      Except.ok (Store.set (applyAppends emptyStore [⟨"u", ⟨"tA", "c", "A", "m", []⟩, 5⟩,
        ⟨"u", ⟨"tB", "c", "B", "m", []⟩, 5⟩]) "u"
        ([] ++ [mkStored ⟨"tB", "c", "B", "m", []⟩ 5])) ∧
    (Store.set (applyAppends emptyStore [⟨"u", ⟨"tA", "c", "A", "m", []⟩, 5⟩,
        ⟨"u", ⟨"tB", "c", "B", "m", []⟩, 5⟩]) "u"
        ([] ++ [mkStored ⟨"tB", "c", "B", "m", []⟩ 5])).list "u" =
      [] ++ [mkStored ⟨"tB", "c", "B", "m", []⟩ 5] :=
  claim_first_match _ "u" "5" 10 [] [mkStored ⟨"tB", "c", "B", "m", []⟩ 5]
    (mkStored ⟨"tA", "c", "A", "m", []⟩ 5) (by decide) (by decide) (by decide)

/-- Witness for C9: with a resolved user and a failed program lookup the
handler appends a record whose message carries the fallback. -/
theorem claim_programAssigned_fallback_witness :
    ∃ n, ((handleProgramAssigned (some ⟨"Jane", "jane@fitsync.com"⟩) none
          ⟨"p1", "u", "tr", "w1", "d1"⟩ emptyStore 5).2).list "u" =
        emptyStore.list "u" ++ [n] ∧
      "Training Program".toList <:+: n.message.toList :=
  claim_programAssigned_fallback ⟨"Jane", "jane@fitsync.com"⟩ none
    ⟨"p1", "u", "tr", "w1", "d1"⟩ emptyStore 5 (Or.inl rfl)
